import Mathlib

/-!
Verification of the harvest loop of harvest_scopus.py: the rate limiter,
the retrying fetch, the pagination-cursor state machine, the chunked
output writer, and the checkpoint persistence.

The script is a single straight-line program.  We embed it shallowly:

* the retry loop (source lines 84-93) becomes retryGo / retryFetch,
  driven by an oracle giving the outcome of every attempt;
* one iteration of the main while-loop (lines 82-125) becomes stepFetch;
* the while-loop becomes runAux (fuel-indexed; the fuel maxReqs + 1 is
  always sufficient because requests_done strictly increases on every
  non-terminating iteration and is bounded by the quota);
* the trailing remainder flush (lines 128-130) becomes finishRun and the
  checkpoint write (lines 133-134) becomes savedState;
* the sliding-window limiter (lines 49-64) is modelled as a predicate on
  timed traces of granted calls.

Ghost observation fields (fetchLog, respLog, allEntries) record the
queries issued, the successful responses, and the concatenation of all
entry lists; they influence nothing and exist only so that theorems can
speak about the history of a run.
-/

namespace Scopus

/-- Records are opaque documents; the loop never inspects them, so a
numeric tag is a faithful model. -/
abbrev Record := ℕ

/-- MAX_REQS_PER_RUN and CHUNK_SIZE_REQS from the source (lines 19-20)
are configuration constants; the spec lists them among the recognized
configuration options, so the embedding takes them as parameters. -/
structure Config where
  maxReqs : ℕ
  chunkSize : ℕ
deriving DecidableEq

/-- Persisted resume state: the JSON object written to cursor_state.json
(source lines 31-37 and 133-134). -/
structure Checkpoint where
  cursor : String
  chunk_counter : ℕ
deriving DecidableEq

/-- The query dict of source lines 67-74.  Only the cursor field is ever
mutated (line 113). -/
structure Query where
  query : String
  date : String
  sort : String
  count : ℕ
  cursor : String
  view : String
deriving DecidableEq

/-- The query skeleton of source lines 67-74, parameterized by the
cursor loaded from the checkpoint. -/
def mkQuery (c : String) : Query :=
  ⟨"DOCTYPE(ar)", "2000-2024", "-coverDate", 25, c, "COMPLETE"⟩

/-- Decoded HTTP response: status code, the entry list of the
search-results envelope, and the optional @next cursor token. -/
structure Response where
  status : ℕ
  entries : List Record
  next : Option String
deriving DecidableEq

/-- Projection used at source line 109; when the token is present the
code stores exactly that string into the query. -/
def nextTok (r : Response) : String := (r.next).getD ""

/-- Python truthiness test of line 110: if not next_cursor.  A missing
token and the empty string are both falsy. -/
def nextAbsent : Option String → Bool
  | none => true
  | some s => s.isEmpty

/-- Outcome of one attempt of rate_limited_get inside the retry loop:
either a requests.RequestException (network error / timeout) or a
decoded response. -/
inductive Attempt where
  | netErr : Attempt
  | resp (r : Response) : Attempt
deriving DecidableEq

/-- RETRY_ATTEMPTS: range(5) at source line 84. -/
def RETRY_ATTEMPTS : ℕ := 5

/-- Observable outcome of the retry loop of source lines 84-93: the
response obtained (none when all attempts failed, triggering the
for-else abort), the sleep durations performed (line 90 sleeps
2 + attempt after every failure), the number of attempts made, and the
query parameter set passed to each attempt. -/
structure FetchTrace where
  result : Option Response
  sleeps : List ℕ
  attempts : ℕ
  paramsLog : List Query
deriving DecidableEq

/-- One traversal of the for-loop for attempt in range(5) starting at
attempt index i with rem iterations remaining; get is the oracle giving
the outcome of attempt i on a given parameter set.  The loop body
passes the same query object to every attempt (source line 86) and
sleeps 2 + attempt seconds after each failure (line 90). -/
def retryGo (get : ℕ → Query → Attempt) (qy : Query) : ℕ → ℕ → FetchTrace
  | _, 0 => ⟨none, [], 0, []⟩
  | i, rem + 1 =>
    match get i qy with
    | Attempt.resp r => ⟨some r, [], 1, [qy]⟩
    | Attempt.netErr =>
      let t := retryGo get qy (i + 1) rem
      ⟨t.result, (2 + i) :: t.sleeps, t.attempts + 1, qy :: t.paramsLog⟩

/-- The full retry loop of source lines 84-93: five attempts starting
at index 0. -/
def retryFetch (get : ℕ → Query → Attempt) (qy : Query) : FetchTrace :=
  retryGo get qy 0 RETRY_ATTEMPTS

/-- Termination reason of the main loop.  exhausted covers the two
break statements at lines 101-103 (empty entry list) and 110-112 (no
@next token); quotaHit is the break at lines 122-125; fatalRetry is the
for-else abort at lines 91-93; fatalHTTP is the non-200 abort at lines
95-97. -/
inductive StopReason where
  | exhausted : StopReason
  | quotaHit : StopReason
  | fatalRetry : StopReason
  | fatalHTTP : StopReason
deriving DecidableEq

/-- State of the main loop.  query, buffer (records_buffer),
requests_done and chunk_counter are the mutable variables of the source;
chunks records the chunk files written during this run as
(counter, records) pairs in order of creation; fetchLog, respLog and
allEntries are ghost observation fields (queries issued, successful
responses received, concatenation of all returned entry lists). -/
structure LoopState where
  query : Query
  buffer : List Record
  requests_done : ℕ
  chunk_counter : ℕ
  chunks : List (ℕ × List Record)
  fetchLog : List Query
  respLog : List Response
  allEntries : List Record
deriving DecidableEq

/-- State at the top of the main loop (source lines 77-79), resuming
from a loaded checkpoint (lines 31-37, 67-74). -/
def initState (cp : Checkpoint) : LoopState :=
  ⟨mkQuery cp.cursor, [], 0, cp.chunk_counter, [], [], [], []⟩

/-- flush_chunk plus the counter increment (source lines 116-119 and
128-130): writes one file named from the incremented counter and clears
the buffer. -/
def flushChunk (s : LoopState) : LoopState :=
  ⟨s.query, [], s.requests_done, s.chunk_counter + 1,
    s.chunks ++ [(s.chunk_counter + 1, s.buffer)],
    s.fetchLog, s.respLog, s.allEntries⟩

/-- Ghost update: one fetch is started with the current query. -/
def logFetch (s : LoopState) : LoopState :=
  ⟨s.query, s.buffer, s.requests_done, s.chunk_counter, s.chunks,
    s.fetchLog ++ [s.query], s.respLog, s.allEntries⟩

/-- Ghost update: a 200 response was received and decoded. -/
def recordResp (s : LoopState) (r : Response) : LoopState :=
  ⟨s.query, s.buffer, s.requests_done, s.chunk_counter, s.chunks,
    s.fetchLog, s.respLog ++ [r], s.allEntries ++ r.entries⟩

/-- Source lines 105-106: records_buffer.extend(entries) and
requests_done += 1. -/
def consumeEntries (s : LoopState) (r : Response) : LoopState :=
  ⟨s.query, s.buffer ++ r.entries, s.requests_done + 1, s.chunk_counter,
    s.chunks, s.fetchLog, s.respLog, s.allEntries⟩

/-- Source line 113: query cursor replaced by the @next token. -/
def advanceCursor (s : LoopState) (r : Response) : LoopState :=
  ⟨⟨s.query.query, s.query.date, s.query.sort, s.query.count,
      nextTok r, s.query.view⟩,
    s.buffer, s.requests_done, s.chunk_counter, s.chunks,
    s.fetchLog, s.respLog, s.allEntries⟩

/-- Source lines 116-119: flush on every CHUNK_SIZE_REQS-request
boundary. -/
def boundaryFlush (cfg : Config) (s : LoopState) : LoopState :=
  if s.requests_done % cfg.chunkSize = 0 then flushChunk s else s

/-- One iteration of the main while-loop (source lines 82-125), in the
exact order of the source: retry-fetch, status check, empty-entries
check, buffer extend and request count, @next check, cursor advance,
boundary flush, quota check.  Returns the new state and the stop reason
when an iteration breaks out of the loop. -/
def stepFetch (cfg : Config) (get : ℕ → Query → Attempt) (s : LoopState) :
    LoopState × Option StopReason :=
  match (retryFetch get s.query).result with
  | none => (logFetch s, some StopReason.fatalRetry)
  | some r =>
    if r.status ≠ 200 then (logFetch s, some StopReason.fatalHTTP)
    else if r.entries = [] then
      (recordResp (logFetch s) r, some StopReason.exhausted)
    else if nextAbsent r.next then
      (consumeEntries (recordResp (logFetch s) r) r, some StopReason.exhausted)
    else
      let s3 := boundaryFlush cfg
        (advanceCursor (consumeEntries (recordResp (logFetch s) r) r) r)
      if cfg.maxReqs ≤ s3.requests_done then (s3, some StopReason.quotaHit)
      else (s3, none)

/-- The while-loop, fuelled.  provider i gives the attempt oracle of
the i-th fetch of the run. -/
def runAux (cfg : Config) (provider : ℕ → ℕ → Query → Attempt) :
    ℕ → ℕ → LoopState → Option (LoopState × StopReason)
  | 0, _, _ => none
  | fuel + 1, i, s =>
    match stepFetch cfg (provider i) s with
    | (s1, some r) => some (s1, r)
    | (s1, none) => runAux cfg provider fuel (i + 1) s1

/-- The main loop from the initial state.  maxReqs + 1 units of fuel
always suffice (runAux_terminates below). -/
def harvestLoop (cfg : Config) (provider : ℕ → ℕ → Query → Attempt)
    (cp : Checkpoint) : Option (LoopState × StopReason) :=
  runAux cfg provider (cfg.maxReqs + 1) 0 (initState cp)

/-- Source lines 128-130: flush leftovers only when the buffer is
non-empty. -/
def finishRun (s : LoopState) : LoopState :=
  if s.buffer = [] then s else flushChunk s

/-- Source lines 133-134: the checkpoint written at run end holds the
current query cursor and the chunk counter. -/
def savedState (s : LoopState) : Checkpoint :=
  ⟨s.query.cursor, s.chunk_counter⟩

/-- A complete run: loop, remainder flush, checkpoint write.  Returns
the saved checkpoint, the final state and the stop reason. -/
def harvest (cfg : Config) (provider : ℕ → ℕ → Query → Attempt)
    (cp : Checkpoint) : Option (Checkpoint × LoopState × StopReason) :=
  match harvestLoop cfg provider cp with
  | none => none
  | some (s, r) => some (savedState (finishRun s), finishRun s, r)

/-- Concatenation of the record lists of a chunk sequence. -/
def catChunks : List (ℕ × List Record) → List Record
  | [] => []
  | k :: ks => k.2 ++ catChunks ks

/-- MAX_RPS from source line 49. -/
def MAX_RPS : ℕ := 9

/-- WINDOW from source line 50, in seconds; time is modelled by ℚ. -/
def WINDOW : ℚ := 1

/-- Timed trace of n calls through rate_limited_get (source lines
53-64).  check i is the value of now at which the waiting loop of call
i exits (the admission instant); record i is the perf_counter value
appended to recent_ts after the response of call i arrives (line 63).
The script is single-threaded, so call i + 1 starts only after record i
was appended. -/
structure RLTrace where
  n : ℕ
  check : ℕ → ℚ
  record : ℕ → ℚ

/-- Monotonicity of perf_counter along the sequential execution: each
call is recorded no earlier than it was admitted, and every earlier
call was recorded before the current admission instant. -/
def traceOrdered (tr : RLTrace) : Prop :=
  ∀ i, i < tr.n →
    tr.check i ≤ tr.record i ∧ ∀ j, j < i → tr.record j ≤ tr.check i

/-- The admission condition of source lines 54-60.  At the admission
instant of call i the deque recent_ts, pruned of entries older than
WINDOW, holds exactly the recorded timestamps of the earlier calls that
are still inside the window (pruning removes an ascending prefix, and a
timestamp pruned at an earlier, smaller now is a fortiori outside the
window now); the call is granted only when fewer than MAX_RPS of them
remain. -/
def admissionOK (tr : RLTrace) : Prop :=
  ∀ i, i < tr.n →
    ((Finset.range i).filter
      (fun j => tr.check i - tr.record j < WINDOW)).card < MAX_RPS

/-- Number of calls granted inside the trailing window ending at t. -/
def windowCount (tr : RLTrace) (t : ℚ) : ℕ :=
  ((Finset.range tr.n).filter
    (fun i => t - WINDOW < tr.check i ∧ tr.check i ≤ t)).card

/-- Scenario constants used by witnesses and counterexamples. -/
def cpStar : Checkpoint := ⟨"*", 0⟩

def cfg3 : Config := ⟨3, 2000⟩

def cfgB : Config := ⟨2, 2⟩

def cfg5 : Config := ⟨5, 2000⟩

def tokStr (i : ℕ) : String := "tok" ++ toString i

/-- Provider that always returns one entry plus a next token (the
quota scenario of the spec). -/
def provC7 : ℕ → ℕ → Query → Attempt :=
  fun i _ _ => Attempt.resp ⟨200, [i], some (tokStr i)⟩

/-- Provider whose single page has one entry and no next token. -/
def provE : ℕ → ℕ → Query → Attempt :=
  fun _ _ _ => Attempt.resp ⟨200, [7], none⟩

/-- Provider whose first fetch succeeds and whose second fetch fails
every attempt. -/
def provC6 : ℕ → ℕ → Query → Attempt :=
  fun i _ _ => if i = 0 then Attempt.resp ⟨200, [1], some "t0"⟩ else Attempt.netErr

/-- Provider for which every attempt raises a network error. -/
def provN : ℕ → ℕ → Query → Attempt :=
  fun _ _ _ => Attempt.netErr

/-- Final loop state of the quota scenario (cfg3, provC7, cpStar). -/
def sfQuota : LoopState :=
  ⟨mkQuery "tok2", [], 3, 1, [(1, [0, 1, 2])],
    [mkQuery "*", mkQuery "tok0", mkQuery "tok1"],
    [⟨200, [0], some "tok0"⟩, ⟨200, [1], some "tok1"⟩, ⟨200, [2], some "tok2"⟩],
    [0, 1, 2]⟩

/-- Final loop state of the boundary scenario (cfgB, provC7, cpStar). -/
def sfBound : LoopState :=
  ⟨mkQuery "tok1", [], 2, 1, [(1, [0, 1])],
    [mkQuery "*", mkQuery "tok0"],
    [⟨200, [0], some "tok0"⟩, ⟨200, [1], some "tok1"⟩],
    [0, 1]⟩

/-- Final state of the single-page scenario (cfg3, provE, cpStar). -/
def sfEnd : LoopState :=
  ⟨mkQuery "*", [], 1, 1, [(1, [7])], [mkQuery "*"],
    [⟨200, [7], none⟩], [7]⟩

/-- Loop state at the abort of the retry-failure scenario
(cfg5, provC6, cpStar), before the remainder flush. -/
def sLFail : LoopState :=
  ⟨mkQuery "t0", [1], 1, 0, [], [mkQuery "*", mkQuery "t0"],
    [⟨200, [1], some "t0"⟩], [1]⟩

/-- Final state of the all-attempts-fail scenario (cfg3, provN,
cpStar): nothing was fetched, nothing was written. -/
def sfNone : LoopState :=
  ⟨mkQuery "*", [], 0, 0, [], [mkQuery "*"], [], []⟩

/-- Concrete rate-limiter trace for the C4 witness: two calls one
second apart. -/
def trX : RLTrace :=
  ⟨2, fun i => if i = 0 then 0 else 1, fun i => if i = 0 then 0 else 1⟩

/-- Attempt oracle for the C5 witness: two network failures, then a
response. -/
def getC5 : ℕ → Query → Attempt :=
  fun i _ => if i < 2 then Attempt.netErr else Attempt.resp ⟨200, [5], none⟩

/-- Literal formalization of claim C1 as stated: after any terminating
run the saved counter equals the loaded counter plus the chunks written,
and the saved cursor was never used to start a fetch in this run,
except on a FATAL stop, where it equals the last cursor that was
successfully consumed (the cursor of the last fetch that received a
response). -/
def C1_originalProp : Prop :=
  ∀ (cfg : Config) (provider : ℕ → ℕ → Query → Attempt) (cp saved : Checkpoint)
    (sf : LoopState) (r : StopReason),
    harvest cfg provider cp = some (saved, sf, r) →
    saved.chunk_counter = cp.chunk_counter + sf.chunks.length ∧
    ((r = StopReason.fatalRetry ∨ r = StopReason.fatalHTTP) ∨
      saved.cursor ∉ sf.fetchLog.map Query.cursor) ∧
    ((r = StopReason.fatalRetry ∨ r = StopReason.fatalHTTP) →
      ((sf.fetchLog.map Query.cursor).take sf.respLog.length).getLast?
        = some saved.cursor)

/-- Literal formalization of claim C6 as stated: when a fetch fails 5
consecutive times the run aborts without writing a new chunk counter
beyond what prior successful flushes produced, and without advancing
the cursor beyond the value used for the failed fetch. -/
def C6_originalProp : Prop :=
  ∀ (cfg : Config) (provider : ℕ → ℕ → Query → Attempt) (cp : Checkpoint)
    (sL : LoopState),
    harvestLoop cfg provider cp = some (sL, StopReason.fatalRetry) →
    (savedState (finishRun sL)).chunk_counter
        = cp.chunk_counter + sL.chunks.length ∧
    (sL.fetchLog.map Query.cursor).getLast? = some (savedState (finishRun sL)).cursor

/-- Invariant tying any reachable loop state to the loaded checkpoint;
these facts survive into every final state.  counter_eq: the counter
equals the loaded counter plus the chunks written so far.  chunks_ne:
every chunk written is non-empty.  cat_eq: the records flushed plus the
records still buffered are exactly all entries returned so far, in
order.  numbering: the i-th chunk written carries counter value
loaded + 1 + i.  first_fetch: the first fetch of the run was issued
with the loaded cursor. -/
structure CoreInv (cp : Checkpoint) (s : LoopState) : Prop where
  counter_eq : s.chunk_counter = cp.chunk_counter + s.chunks.length
  chunks_ne : ∀ k ∈ s.chunks, k.2 ≠ []
  cat_eq : catChunks s.chunks ++ s.buffer = s.allEntries
  numbering : ∀ i k, s.chunks[i]? = some k → k.1 = cp.chunk_counter + 1 + i
  first_fetch : ∀ q0, s.fetchLog.head? = some q0 → q0.cursor = cp.cursor

/-- Full invariant of states at the top of the loop: additionally, the
cursors used by the fetches so far, followed by the pending cursor, are
exactly the loaded cursor followed by the next tokens of the responses
received, and the query still has the fixed skeleton shape. -/
structure FullInv (cp : Checkpoint) (s : LoopState) extends CoreInv cp s : Prop where
  struct_eq : s.fetchLog.map Query.cursor ++ [s.query.cursor]
      = cp.cursor :: s.respLog.map nextTok
  query_shape : s.query = mkQuery s.query.cursor

/-- Facts holding at the state in which the loop stopped. -/
structure FinalFacts (cp : Checkpoint) (s : LoopState) (r : StopReason) : Prop where
  core : CoreInv cp s
  last_cursor : r ≠ StopReason.quotaHit →
    (s.fetchLog.map Query.cursor).getLast? = some s.query.cursor
  quota_struct : r = StopReason.quotaHit →
    s.fetchLog.map Query.cursor ++ [s.query.cursor]
      = cp.cursor :: s.respLog.map nextTok
  quota_resp : r = StopReason.quotaHit → s.respLog ≠ []

end Scopus

namespace Scopus

lemma catChunks_append (a b : List (ℕ × List Record)) :
    catChunks (a ++ b) = catChunks a ++ catChunks b := by
  induction a with
  | nil => simp [catChunks]
  | cons k ks ih => simp [catChunks, ih]

lemma length_catChunks (l : List (ℕ × List Record)) :
    (catChunks l).length = (l.map (fun k => k.2.length)).sum := by
  induction l with
  | nil => simp [catChunks]
  | cons k ks ih => simp [catChunks, ih]

lemma retryGo_attempts_le (get : ℕ → Query → Attempt) (qy : Query) :
    ∀ rem i, (retryGo get qy i rem).attempts ≤ rem := by
  intro rem
  induction rem with
  | zero => intro i; simp [retryGo]
  | succ n ih =>
    intro i
    cases h : get i qy with
    | resp r => simp [retryGo, h]
    | netErr => simp [retryGo, h]; exact ih (i + 1)

lemma retryGo_params (get : ℕ → Query → Attempt) (qy : Query) :
    ∀ rem i, (retryGo get qy i rem).paramsLog
      = List.replicate (retryGo get qy i rem).attempts qy := by
  intro rem
  induction rem with
  | zero => intro i; simp [retryGo]
  | succ n ih =>
    intro i
    cases h : get i qy with
    | resp r => simp [retryGo, h, List.replicate]
    | netErr => simp [retryGo, h, List.replicate]; exact ih (i + 1)

lemma range_map_shift (f : ℕ → ℕ) (L : ℕ) :
    (List.range (L + 1)).map f = f 0 :: (List.range L).map (fun j => f (j + 1)) := by
  simp [List.range_succ_eq_map, List.map_map, Function.comp]

lemma retryGo_sleeps (get : ℕ → Query → Attempt) (qy : Query) :
    ∀ rem i, (retryGo get qy i rem).sleeps
      = (List.range (retryGo get qy i rem).sleeps.length).map (fun j => 2 + i + j) := by
  intro rem
  induction rem with
  | zero => intro i; simp [retryGo]
  | succ n ih =>
    intro i
    cases h : get i qy with
    | resp r => simp [retryGo, h]
    | netErr =>
      simp only [retryGo, h]
      rw [ih (i + 1)]
      simp only [List.length_cons, List.length_map, List.length_range]
      rw [range_map_shift]
      exact List.cons_eq_cons.mpr
        ⟨by omega, List.map_congr_left fun a _ => by omega⟩

lemma retryGo_first_resp (get : ℕ → Query → Attempt) (qy : Query) :
    ∀ k i rem r, k < rem →
      (∀ j, j < k → get (i + j) qy = Attempt.netErr) →
      get (i + k) qy = Attempt.resp r →
      retryGo get qy i rem
        = ⟨some r, (List.range k).map (fun j => 2 + i + j), k + 1,
            List.replicate (k + 1) qy⟩ := by
  intro k
  induction k with
  | zero =>
    intro i rem r hk _ hresp
    obtain ⟨n, rfl⟩ : ∃ n, rem = n + 1 := ⟨rem - 1, by omega⟩
    simp only [Nat.add_zero] at hresp
    simp [retryGo, hresp, List.replicate]
  | succ k ih =>
    intro i rem r hk hpre hresp
    obtain ⟨n, rfl⟩ : ∃ n, rem = n + 1 := ⟨rem - 1, by omega⟩
    have h0 : get i qy = Attempt.netErr := by
      have := hpre 0 (by omega)
      simpa using this
    have hrec := ih (i + 1) n r (by omega)
      (fun j hj => by
        have := hpre (j + 1) (by omega)
        rwa [show i + (j + 1) = i + 1 + j by omega] at this)
      (by rwa [show i + 1 + k = i + (k + 1) by omega])
    simp only [retryGo, h0, hrec]
    rw [show ((List.range (k + 1)).map (fun j => 2 + i + j))
        = (2 + i + 0) :: (List.range k).map (fun j => 2 + i + (j + 1)) from
      range_map_shift (fun j => 2 + i + j) k]
    simp only [FetchTrace.mk.injEq, List.replicate_succ, and_true, true_and]
    exact List.cons_eq_cons.mpr
      ⟨by omega, List.map_congr_left fun a _ => by omega⟩

lemma retryGo_all_fail (get : ℕ → Query → Attempt) (qy : Query) :
    ∀ rem i, (∀ j, j < rem → get (i + j) qy = Attempt.netErr) →
      retryGo get qy i rem
        = ⟨none, (List.range rem).map (fun j => 2 + i + j), rem,
            List.replicate rem qy⟩ := by
  intro rem
  induction rem with
  | zero => intro i _; simp [retryGo]
  | succ n ih =>
    intro i hall
    have h0 : get i qy = Attempt.netErr := by
      have := hall 0 (by omega)
      simpa using this
    have hrec := ih (i + 1) (fun j hj => by
      have := hall (j + 1) (by omega)
      rwa [show i + (j + 1) = i + 1 + j by omega] at this)
    simp only [retryGo, h0, hrec]
    rw [show ((List.range (n + 1)).map (fun j => 2 + i + j))
        = (2 + i + 0) :: (List.range n).map (fun j => 2 + i + (j + 1)) from
      range_map_shift (fun j => 2 + i + j) n]
    simp only [FetchTrace.mk.injEq, List.replicate_succ, and_true, true_and]
    exact List.cons_eq_cons.mpr
      ⟨by omega, List.map_congr_left fun a _ => by omega⟩

lemma boundaryFlush_respLog (cfg : Config) (s : LoopState) :
    (boundaryFlush cfg s).respLog = s.respLog := by
  unfold boundaryFlush; split <;> rfl

lemma boundaryFlush_requests (cfg : Config) (s : LoopState) :
    (boundaryFlush cfg s).requests_done = s.requests_done := by
  unfold boundaryFlush flushChunk; split <;> rfl

lemma getLast_concat_cursor (L : List Query) (q : Query) :
    ((L ++ [q]).map Query.cursor).getLast? = some q.cursor := by
  simp

lemma query_update_cursor (q : Query) (hq : q = mkQuery q.cursor) (x : String) :
    (⟨q.query, q.date, q.sort, q.count, x, q.view⟩ : Query) = mkQuery x := by
  have h1 := congrArg Query.query hq
  have h2 := congrArg Query.date hq
  have h3 := congrArg Query.sort hq
  have h4 := congrArg Query.count hq
  have h5 := congrArg Query.view hq
  simp only [mkQuery] at h1 h2 h3 h4 h5
  simp only [mkQuery]
  rw [h1, h2, h3, h4, h5]

lemma first_fetch_append (cp : Checkpoint) (s : LoopState) (hinv : FullInv cp s) :
    ∀ q0, ((s.fetchLog ++ [s.query]).head? = some q0) → q0.cursor = cp.cursor := by
  intro q0 h0
  cases hl : s.fetchLog with
  | nil =>
    rw [hl] at h0
    simp only [List.nil_append, List.head?_cons, Option.some.injEq] at h0
    have := hinv.struct_eq
    rw [hl] at this
    simp only [List.map_nil, List.nil_append] at this
    have hc : s.query.cursor = cp.cursor := (List.cons_eq_cons.mp this).1
    rw [← h0, hc]
  | cons a l =>
    rw [hl] at h0
    simp only [List.cons_append, List.head?_cons, Option.some.injEq] at h0
    exact hinv.first_fetch q0 (by rw [hl, ← h0]; rfl)

lemma coreInv_logFetch (cp : Checkpoint) (s : LoopState) (hinv : FullInv cp s) :
    CoreInv cp (logFetch s) :=
  ⟨hinv.counter_eq, hinv.chunks_ne, hinv.cat_eq, hinv.numbering,
    first_fetch_append cp s hinv⟩

lemma coreInv_empty (cp : Checkpoint) (s : LoopState) (r : Response)
    (hinv : FullInv cp s) (he : r.entries = []) :
    CoreInv cp (recordResp (logFetch s) r) := by
  refine ⟨hinv.counter_eq, hinv.chunks_ne, ?_, hinv.numbering,
    first_fetch_append cp s hinv⟩
  show catChunks s.chunks ++ s.buffer = s.allEntries ++ r.entries
  rw [he, List.append_nil, hinv.cat_eq]

lemma coreInv_consume (cp : Checkpoint) (s : LoopState) (r : Response)
    (hinv : FullInv cp s) :
    CoreInv cp (consumeEntries (recordResp (logFetch s) r) r) := by
  refine ⟨hinv.counter_eq, hinv.chunks_ne, ?_, hinv.numbering,
    first_fetch_append cp s hinv⟩
  show catChunks s.chunks ++ (s.buffer ++ r.entries) = s.allEntries ++ r.entries
  rw [← List.append_assoc, hinv.cat_eq]

lemma fullInv_adv (cp : Checkpoint) (s : LoopState) (r : Response)
    (hinv : FullInv cp s) :
    FullInv cp (advanceCursor (consumeEntries (recordResp (logFetch s) r) r) r) := by
  have hc := coreInv_consume cp s r hinv
  refine ⟨⟨hc.counter_eq, hc.chunks_ne, hc.cat_eq, hc.numbering, hc.first_fetch⟩, ?_, ?_⟩
  · show (s.fetchLog ++ [s.query]).map Query.cursor ++ [nextTok r]
      = cp.cursor :: (s.respLog ++ [r]).map nextTok
    rw [List.map_append, List.map_append]
    calc (s.fetchLog.map Query.cursor ++ [s.query].map Query.cursor) ++ [nextTok r]
        = (cp.cursor :: s.respLog.map nextTok) ++ [nextTok r] := by
          rw [show ([s.query].map Query.cursor) = [s.query.cursor] from rfl,
            hinv.struct_eq]
      _ = cp.cursor :: (s.respLog.map nextTok ++ [r].map nextTok) := by simp
  · exact query_update_cursor s.query hinv.query_shape (nextTok r)

lemma coreInv_flush (cp : Checkpoint) (s : LoopState)
    (h : CoreInv cp s) (hb : s.buffer ≠ []) : CoreInv cp (flushChunk s) := by
  refine ⟨?_, ?_, ?_, ?_, h.first_fetch⟩
  · show s.chunk_counter + 1
      = cp.chunk_counter + (s.chunks ++ [(s.chunk_counter + 1, s.buffer)]).length
    rw [h.counter_eq, List.length_append]
    simp only [List.length_cons, List.length_nil]
    omega
  · intro k hk
    rcases List.mem_append.mp hk with h1 | h2
    · exact h.chunks_ne k h1
    · have hk2 : k = (s.chunk_counter + 1, s.buffer) := by simpa using h2
      rw [hk2]
      exact hb
  · show catChunks (s.chunks ++ [(s.chunk_counter + 1, s.buffer)]) ++ [] = s.allEntries
    rw [List.append_nil, catChunks_append]
    show catChunks s.chunks ++ (s.buffer ++ catChunks []) = s.allEntries
    show catChunks s.chunks ++ (s.buffer ++ []) = s.allEntries
    rw [List.append_nil, h.cat_eq]
  · intro i k hik
    by_cases hi : i < s.chunks.length
    · rw [show (flushChunk s).chunks = s.chunks ++ [(s.chunk_counter + 1, s.buffer)] from rfl,
        List.getElem?_append_left hi] at hik
      exact h.numbering i k hik
    · have hle : s.chunks.length ≤ i := by omega
      rw [show (flushChunk s).chunks = s.chunks ++ [(s.chunk_counter + 1, s.buffer)] from rfl,
        List.getElem?_append_right hle] at hik
      rcases Nat.eq_or_lt_of_le hle with heq | hlt
      · rw [← heq, Nat.sub_self] at hik
        simp only [List.getElem?_cons_zero, Option.some.injEq] at hik
        rw [← hik]
        show s.chunk_counter + 1 = cp.chunk_counter + 1 + i
        rw [h.counter_eq, heq]
        omega
      · rw [show i - s.chunks.length = (i - s.chunks.length - 1) + 1 by omega] at hik
        simp at hik

lemma fullInv_flush (cp : Checkpoint) (s : LoopState)
    (h : FullInv cp s) (hb : s.buffer ≠ []) : FullInv cp (flushChunk s) :=
  ⟨coreInv_flush cp s h.toCoreInv hb, h.struct_eq, h.query_shape⟩

lemma stepFetch_eq_none (cfg : Config) (get : ℕ → Query → Attempt) (s : LoopState)
    (h : (retryFetch get s.query).result = none) :
    stepFetch cfg get s = (logFetch s, some StopReason.fatalRetry) := by
  simp [stepFetch, h]

lemma stepFetch_eq_badStatus (cfg : Config) (get : ℕ → Query → Attempt)
    (s : LoopState) (r : Response)
    (hr : (retryFetch get s.query).result = some r) (hst : r.status ≠ 200) :
    stepFetch cfg get s = (logFetch s, some StopReason.fatalHTTP) := by
  simp [stepFetch, hr, hst]

lemma stepFetch_eq_empty (cfg : Config) (get : ℕ → Query → Attempt)
    (s : LoopState) (r : Response)
    (hr : (retryFetch get s.query).result = some r) (hst : r.status = 200)
    (he : r.entries = []) :
    stepFetch cfg get s = (recordResp (logFetch s) r, some StopReason.exhausted) := by
  simp [stepFetch, hr, hst, he]

lemma stepFetch_eq_noNext (cfg : Config) (get : ℕ → Query → Attempt)
    (s : LoopState) (r : Response)
    (hr : (retryFetch get s.query).result = some r) (hst : r.status = 200)
    (he : r.entries ≠ []) (hn : nextAbsent r.next = true) :
    stepFetch cfg get s
      = (consumeEntries (recordResp (logFetch s) r) r, some StopReason.exhausted) := by
  simp [stepFetch, hr, hst, he, hn]

lemma stepFetch_eq_adv (cfg : Config) (get : ℕ → Query → Attempt)
    (s : LoopState) (r : Response)
    (hr : (retryFetch get s.query).result = some r) (hst : r.status = 200)
    (he : r.entries ≠ []) (hn : nextAbsent r.next = false) :
    stepFetch cfg get s
      = (if cfg.maxReqs ≤
            (boundaryFlush cfg
              (advanceCursor (consumeEntries (recordResp (logFetch s) r) r) r)).requests_done
         then (boundaryFlush cfg
                (advanceCursor (consumeEntries (recordResp (logFetch s) r) r) r),
               some StopReason.quotaHit)
         else (boundaryFlush cfg
                (advanceCursor (consumeEntries (recordResp (logFetch s) r) r) r),
               none)) := by
  simp [stepFetch, hr, hst, he, hn]

lemma finalFacts_fatal (cp : Checkpoint) (s : LoopState) (r : StopReason)
    (hinv : FullInv cp s) (hr : r ≠ StopReason.quotaHit) :
    FinalFacts cp (logFetch s) r := by
  refine ⟨coreInv_logFetch cp s hinv, ?_, ?_, ?_⟩
  · intro _
    exact getLast_concat_cursor s.fetchLog s.query
  · intro hq
    exact absurd hq hr
  · intro hq
    exact absurd hq hr

lemma stepFetch_sound (cfg : Config) (get : ℕ → Query → Attempt) (cp : Checkpoint)
    (s s1 : LoopState) (o : Option StopReason) (hinv : FullInv cp s)
    (h : stepFetch cfg get s = (s1, o)) :
    (o = none → FullInv cp s1) ∧
    (∀ rr, o = some rr → FinalFacts cp s1 rr) := by
  cases hres : (retryFetch get s.query).result with
  | none =>
    rw [stepFetch_eq_none cfg get s hres] at h
    injection h with h1 h2
    subst h1
    subst h2
    refine ⟨(fun hh => nomatch hh), fun rr hh => ?_⟩
    injection hh with hh
    subst hh
    exact finalFacts_fatal cp s _ hinv (by decide)
  | some r =>
    by_cases hst : r.status = 200
    · by_cases he : r.entries = []
      · rw [stepFetch_eq_empty cfg get s r hres hst he] at h
        injection h with h1 h2
        subst h1
        subst h2
        refine ⟨(fun hh => nomatch hh), fun rr hh => ?_⟩
        injection hh with hh
        subst hh
        refine ⟨coreInv_empty cp s r hinv he, ?_, ?_, ?_⟩
        · intro _
          exact getLast_concat_cursor s.fetchLog s.query
        · intro hq
          cases hq
        · intro hq
          cases hq
      · by_cases hn : nextAbsent r.next
        · rw [stepFetch_eq_noNext cfg get s r hres hst he hn] at h
          injection h with h1 h2
          subst h1
          subst h2
          refine ⟨(fun hh => nomatch hh), fun rr hh => ?_⟩
          injection hh with hh
          subst hh
          refine ⟨coreInv_consume cp s r hinv, ?_, ?_, ?_⟩
          · intro _
            exact getLast_concat_cursor s.fetchLog s.query
          · intro hq
            cases hq
          · intro hq
            cases hq
        · have hn2 : nextAbsent r.next = false := by
            exact Bool.not_eq_true _ ▸ (by simpa using hn)
          rw [stepFetch_eq_adv cfg get s r hres hst he hn2] at h
          have hbuf : (advanceCursor (consumeEntries (recordResp (logFetch s) r) r) r).buffer ≠ [] := by
            show s.buffer ++ r.entries ≠ []
            intro hc
            exact he (List.append_eq_nil.mp hc).2
          have h3 : FullInv cp
              (boundaryFlush cfg
                (advanceCursor (consumeEntries (recordResp (logFetch s) r) r) r)) := by
            unfold boundaryFlush
            split
            · exact fullInv_flush cp _ (fullInv_adv cp s r hinv) hbuf
            · exact fullInv_adv cp s r hinv
          by_cases hq : cfg.maxReqs ≤
              (boundaryFlush cfg
                (advanceCursor (consumeEntries (recordResp (logFetch s) r) r) r)).requests_done
          · rw [if_pos hq] at h
            injection h with h1 h2
            subst h1
            subst h2
            refine ⟨(fun hh => nomatch hh), fun rr hh => ?_⟩
            injection hh with hh
            subst hh
            refine ⟨h3.toCoreInv, ?_, ?_, ?_⟩
            · intro hne
              exact absurd rfl hne
            · intro _
              exact h3.struct_eq
            · intro _
              rw [boundaryFlush_respLog]
              show s.respLog ++ [r] ≠ []
              simp
          · rw [if_neg hq] at h
            injection h with h1 h2
            subst h1
            subst h2
            exact ⟨fun _ => h3, (fun rr hh => nomatch hh)⟩
    · rw [stepFetch_eq_badStatus cfg get s r hres hst] at h
      injection h with h1 h2
      subst h1
      subst h2
      refine ⟨(fun hh => nomatch hh), fun rr hh => ?_⟩
      injection hh with hh
      subst hh
      exact finalFacts_fatal cp s _ hinv (by decide)


lemma fullInv_init (cp : Checkpoint) : FullInv cp (initState cp) := by
  refine ⟨⟨?_, ?_, ?_, ?_, ?_⟩, ?_, ?_⟩
  · simp [initState]
  · intro k hk
    simp [initState] at hk
  · rfl
  · intro i k hik
    simp [initState] at hik
  · intro q0 h0
    simp [initState] at h0
  · rfl
  · rfl

lemma runAux_sound (cfg : Config) (provider : ℕ → ℕ → Query → Attempt)
    (cp : Checkpoint) :
    ∀ fuel i s sf r, FullInv cp s →
      runAux cfg provider fuel i s = some (sf, r) → FinalFacts cp sf r := by
  intro fuel
  induction fuel with
  | zero =>
    intro i s sf r _ h
    exact Option.noConfusion h
  | succ n ih =>
    intro i s sf r hinv h
    rcases hstep : stepFetch cfg (provider i) s with ⟨s1, o⟩
    have hsound := stepFetch_sound cfg (provider i) cp s s1 o hinv hstep
    simp only [runAux] at h
    rw [hstep] at h
    cases o with
    | none =>
      exact ih (i + 1) s1 sf r (hsound.1 rfl) h
    | some rr =>
      have h2 : ((s1, rr) : LoopState × StopReason) = (sf, r) := by
        injection h
      injection h2 with h3 h4
      subst h3
      subst h4
      exact hsound.2 _ rfl

lemma harvestLoop_sound (cfg : Config) (provider : ℕ → ℕ → Query → Attempt)
    (cp : Checkpoint) (sL : LoopState) (r : StopReason)
    (h : harvestLoop cfg provider cp = some (sL, r)) : FinalFacts cp sL r :=
  runAux_sound cfg provider cp (cfg.maxReqs + 1) 0 (initState cp) sL r
    (fullInv_init cp) h

lemma finishRun_buffer (s : LoopState) : (finishRun s).buffer = [] := by
  unfold finishRun
  split
  · assumption
  · rfl

lemma finishRun_query (s : LoopState) : (finishRun s).query = s.query := by
  unfold finishRun
  split <;> rfl

lemma finishRun_fetchLog (s : LoopState) : (finishRun s).fetchLog = s.fetchLog := by
  unfold finishRun
  split <;> rfl

lemma finishRun_respLog (s : LoopState) : (finishRun s).respLog = s.respLog := by
  unfold finishRun
  split <;> rfl

lemma finishRun_requests (s : LoopState) :
    (finishRun s).requests_done = s.requests_done := by
  unfold finishRun
  split <;> rfl

lemma finishRun_counter (s : LoopState) :
    (finishRun s).chunk_counter
      = s.chunk_counter + (if s.buffer = [] then 0 else 1) := by
  unfold finishRun
  split <;> rename_i hb <;> simp [hb, flushChunk]

lemma finishRun_chunks_empty (s : LoopState) (hb : s.buffer = []) :
    (finishRun s).chunks = s.chunks := by
  unfold finishRun
  rw [if_pos hb]

lemma coreInv_finish (cp : Checkpoint) (s : LoopState) (h : CoreInv cp s) :
    CoreInv cp (finishRun s) := by
  unfold finishRun
  split
  · exact h
  · exact coreInv_flush cp s h (by assumption)

lemma harvest_sound (cfg : Config) (provider : ℕ → ℕ → Query → Attempt)
    (cp : Checkpoint) (saved : Checkpoint) (sf : LoopState) (r : StopReason)
    (h : harvest cfg provider cp = some (saved, sf, r)) :
    CoreInv cp sf ∧ sf.buffer = [] ∧ saved = savedState sf ∧
    (∃ sL, harvestLoop cfg provider cp = some (sL, r) ∧ sf = finishRun sL) ∧
    (r ≠ StopReason.quotaHit →
      (sf.fetchLog.map Query.cursor).getLast? = some saved.cursor) ∧
    (r = StopReason.quotaHit →
      sf.fetchLog.map Query.cursor ++ [saved.cursor]
          = cp.cursor :: sf.respLog.map nextTok
        ∧ sf.respLog ≠ []) := by
  unfold harvest at h
  rcases hl : harvestLoop cfg provider cp with _ | ⟨sL, rL⟩
  · rw [hl] at h
    exact Option.noConfusion h
  · rw [hl] at h
    have h2 : ((savedState (finishRun sL), finishRun sL, rL)
        : Checkpoint × LoopState × StopReason) = (saved, sf, r) := by
      injection h
    injection h2 with ha hb
    injection hb with hb1 hb2
    subst ha
    subst hb1
    subst hb2
    have hf := harvestLoop_sound cfg provider cp sL rL hl
    refine ⟨coreInv_finish cp sL hf.core, finishRun_buffer sL, rfl,
      ⟨sL, rfl, rfl⟩, ?_, ?_⟩
    · intro hne
      show ((finishRun sL).fetchLog.map Query.cursor).getLast?
        = some (finishRun sL).query.cursor
      rw [finishRun_fetchLog, finishRun_query]
      exact hf.last_cursor hne
    · intro hq
      constructor
      · show (finishRun sL).fetchLog.map Query.cursor ++ [(finishRun sL).query.cursor]
          = cp.cursor :: (finishRun sL).respLog.map nextTok
        rw [finishRun_fetchLog, finishRun_query, finishRun_respLog]
        exact hf.quota_struct hq
      · rw [finishRun_respLog]
        exact hf.quota_resp hq

lemma stepFetch_cont_requests (cfg : Config) (get : ℕ → Query → Attempt)
    (s s1 : LoopState) (h : stepFetch cfg get s = (s1, none)) :
    s1.requests_done = s.requests_done + 1 ∧ s1.requests_done < cfg.maxReqs := by
  cases hres : (retryFetch get s.query).result with
  | none =>
    rw [stepFetch_eq_none cfg get s hres] at h
    injection h with h1 h2
    exact Option.noConfusion h2
  | some r =>
    by_cases hst : r.status = 200
    · by_cases he : r.entries = []
      · rw [stepFetch_eq_empty cfg get s r hres hst he] at h
        injection h with h1 h2
        exact Option.noConfusion h2
      · by_cases hn : nextAbsent r.next
        · rw [stepFetch_eq_noNext cfg get s r hres hst he hn] at h
          injection h with h1 h2
          exact Option.noConfusion h2
        · have hn2 : nextAbsent r.next = false := by simpa using hn
          rw [stepFetch_eq_adv cfg get s r hres hst he hn2] at h
          by_cases hq : cfg.maxReqs ≤
              (boundaryFlush cfg
                (advanceCursor (consumeEntries (recordResp (logFetch s) r) r) r)).requests_done
          · rw [if_pos hq] at h
            injection h with h1 h2
            exact Option.noConfusion h2
          · rw [if_neg hq] at h
            injection h with h1 h2
            subst h1
            rw [boundaryFlush_requests] at hq ⊢
            exact ⟨rfl, by omega⟩
    · rw [stepFetch_eq_badStatus cfg get s r hres hst] at h
      injection h with h1 h2
      exact Option.noConfusion h2

lemma runAux_terminates (cfg : Config) (provider : ℕ → ℕ → Query → Attempt) :
    ∀ fuel i s, cfg.maxReqs < s.requests_done + fuel →
      s.requests_done ≤ cfg.maxReqs →
      (runAux cfg provider fuel i s).isSome := by
  intro fuel
  induction fuel with
  | zero =>
    intro i s h1 h2
    omega
  | succ n ih =>
    intro i s h1 h2
    rcases hstep : stepFetch cfg (provider i) s with ⟨s1, o⟩
    simp only [runAux]
    rw [hstep]
    cases o with
    | none =>
      have hc := stepFetch_cont_requests cfg (provider i) s s1 hstep
      exact ih (i + 1) s1 (by omega) (by omega)
    | some rr =>
      rfl

/-- Every run terminates and saves a checkpoint: the fuel given to the
loop is always sufficient. -/
theorem harvest_total (cfg : Config) (provider : ℕ → ℕ → Query → Attempt)
    (cp : Checkpoint) : (harvest cfg provider cp).isSome := by
  have hl : (harvestLoop cfg provider cp).isSome := by
    unfold harvestLoop
    exact runAux_terminates cfg provider (cfg.maxReqs + 1) 0 (initState cp)
      (by simp [initState]) (by simp [initState])
  unfold harvest
  rcases h : harvestLoop cfg provider cp with _ | ⟨sL, rL⟩
  · rw [h] at hl
    simp at hl
  · rfl


/-- C4: for every valid trace of calls through the sliding-window
limiter of rate_limited_get (each call admitted only when fewer than
MAX_RPS recorded timestamps remain inside the trailing WINDOW), no
trailing WINDOW-second interval contains more than MAX_RPS granted
calls. -/
theorem C4_rate_bound (tr : RLTrace) (h1 : admissionOK tr) (h2 : traceOrdered tr)
    (t : ℚ) : windowCount tr t ≤ MAX_RPS := by
  unfold windowCount
  by_contra hlt
  push_neg at hlt
  set S := (Finset.range tr.n).filter
    (fun i => t - WINDOW < tr.check i ∧ tr.check i ≤ t) with hS
  have hne : S.Nonempty := Finset.card_pos.mp (by omega)
  set m := S.max' hne with hm
  have hmS : m ∈ S := S.max'_mem hne
  have hmrange : m < tr.n := Finset.mem_range.mp (Finset.mem_filter.mp hmS).1
  have hmwin := (Finset.mem_filter.mp hmS).2
  have hsub : S.erase m ⊆ (Finset.range m).filter
      (fun j => tr.check m - tr.record j < WINDOW) := by
    intro j hj
    have hjm : j ≠ m := (Finset.mem_erase.mp hj).1
    have hjS : j ∈ S := (Finset.mem_erase.mp hj).2
    have hjlt : j < m := lt_of_le_of_ne (Finset.le_max' S j hjS) hjm
    have hjrange : j < tr.n := Finset.mem_range.mp (Finset.mem_filter.mp hjS).1
    have hjwin := (Finset.mem_filter.mp hjS).2
    refine Finset.mem_filter.mpr ⟨Finset.mem_range.mpr hjlt, ?_⟩
    have hcr : tr.check j ≤ tr.record j := (h2 j hjrange).1
    have hrec : t - WINDOW < tr.record j := lt_of_lt_of_le hjwin.1 hcr
    have hcm : tr.check m ≤ t := hmwin.2
    linarith
  have h3 := Finset.card_le_card hsub
  have h4 := h1 m hmrange
  have h5 : (S.erase m).card + 1 = S.card := Finset.card_erase_add_one hmS
  omega

/-- C5: the retry loop makes at most 5 attempts; every attempt receives
the identical query parameter set; the sleeps performed are exactly
2 + attempt_index for the consecutive failed attempts; the loop stops
at the first response regardless of its status, with the exact trace
given by the first-response and all-fail characterizations; and a
non-success HTTP status is never retried: it aborts the iteration with
fatalHTTP, an outcome distinct from the retry-exhausted fatalRetry. -/
theorem C5_retry_policy (get : ℕ → Query → Attempt) (qy : Query) :
    (retryFetch get qy).attempts ≤ RETRY_ATTEMPTS ∧
    (retryFetch get qy).paramsLog
      = List.replicate (retryFetch get qy).attempts qy ∧
    (retryFetch get qy).sleeps
      = (List.range (retryFetch get qy).sleeps.length).map (fun j => 2 + j) ∧
    (∀ i r, i < RETRY_ATTEMPTS → (∀ j, j < i → get j qy = Attempt.netErr) →
      get i qy = Attempt.resp r →
      retryFetch get qy
        = ⟨some r, (List.range i).map (fun j => 2 + j), i + 1,
            List.replicate (i + 1) qy⟩) ∧
    ((∀ j, j < RETRY_ATTEMPTS → get j qy = Attempt.netErr) →
      retryFetch get qy
        = ⟨none, (List.range RETRY_ATTEMPTS).map (fun j => 2 + j), RETRY_ATTEMPTS,
            List.replicate RETRY_ATTEMPTS qy⟩) ∧
    (∀ (cfg : Config) (s : LoopState) (r : Response),
      (retryFetch get s.query).result = some r → r.status ≠ 200 →
      stepFetch cfg get s = (logFetch s, some StopReason.fatalHTTP)
        ∧ StopReason.fatalHTTP ≠ StopReason.fatalRetry) := by
  refine ⟨retryGo_attempts_le get qy RETRY_ATTEMPTS 0,
    retryGo_params get qy RETRY_ATTEMPTS 0, ?_, ?_, ?_, ?_⟩
  · have h0 : (retryFetch get qy).sleeps
        = (List.range (retryFetch get qy).sleeps.length).map (fun j => 2 + 0 + j) :=
      retryGo_sleeps get qy RETRY_ATTEMPTS 0
    rw [h0]
    simp only [List.length_map, List.length_range, Nat.add_zero, Nat.zero_add]
  · intro i r hi hpre hresp
    have h4 := retryGo_first_resp get qy i 0 RETRY_ATTEMPTS r hi
      (fun j hj => by simpa using hpre j hj) (by simpa using hresp)
    show retryGo get qy 0 RETRY_ATTEMPTS = _
    rw [h4]
  · intro hall
    have h5 := retryGo_all_fail get qy RETRY_ATTEMPTS 0
      (fun j hj => by simpa using hall j hj)
    show retryGo get qy 0 RETRY_ATTEMPTS = _
    rw [h5]
  · intro cfg s r hres hst
    exact ⟨stepFetch_eq_badStatus cfg get s r hres hst, by decide⟩

/-- Witness for C5: on the concrete oracle getC5 the retry loop stops
at the third attempt with the response, after sleeping 2 and 3
seconds. -/
theorem C5_witness :
    retryFetch getC5 (mkQuery "*")
      = ⟨some ⟨200, [5], none⟩, (List.range 2).map (fun j => 2 + j), 3,
          List.replicate 3 (mkQuery "*")⟩ :=
  (C5_retry_policy getC5 (mkQuery "*")).2.2.2.1 2 ⟨200, [5], none⟩
    (by decide) (by decide) (by decide)

/-- Witness for C4: a concrete two-call trace one second apart
satisfies the admission and ordering hypotheses, and the window bound
follows by the theorem. -/
theorem C4_witness :
    admissionOK trX ∧ traceOrdered trX ∧ windowCount trX 1 ≤ MAX_RPS := by
  have ha : admissionOK trX := by
    intro i hi
    have hcard : ((Finset.range i).filter
        (fun j => trX.check i - trX.record j < WINDOW)).card ≤ i := by
      calc ((Finset.range i).filter
          (fun j => trX.check i - trX.record j < WINDOW)).card
          ≤ (Finset.range i).card := Finset.card_filter_le _ _
        _ = i := Finset.card_range i
    have hn : trX.n = 2 := rfl
    rw [hn] at hi
    show _ < MAX_RPS
    have : MAX_RPS = 9 := rfl
    omega
  have ht : traceOrdered trX := by
    intro i hi
    refine ⟨le_refl _, ?_⟩
    intro j hj
    have hn : trX.n = 2 := rfl
    rw [hn] at hi
    have hi1 : i = 1 := by omega
    have hj0 : j = 0 := by omega
    rw [hi1, hj0]
    show (if (0 : ℕ) = 0 then (0 : ℚ) else 1) ≤ (if (1 : ℕ) = 0 then (0 : ℚ) else 1)
    norm_num
  exact ⟨ha, ht, C4_rate_bound trX ha ht 1⟩


/-- C1 fails on the code: a run of one successful fetch whose response
has entries but no next token stops EXHAUSTED and saves the very cursor
it just consumed, which was used to start a fetch. -/
theorem C1_counterexample : ¬ C1_originalProp := fun h =>
  absurd ((h cfg3 provE cpStar ⟨"*", 1⟩ sfEnd StopReason.exhausted
    (by decide)).2.1) (by decide)

/-- C1 (amended): for every terminating run, the saved chunk_counter
equals the loaded counter plus the number of chunk files written during
the run; when the run does not stop on the quota, the saved cursor is
the cursor used to start (or attempted by) the final fetch; when it
stops on the quota, the saved cursor is the next-page token returned by
the final fetch and - provided the loaded cursor and the returned
tokens are pairwise distinct - was never used to start a fetch in this
run.  The distinctness proviso conditions only that last sub-clause;
everything else holds for every terminating run. -/
theorem C1_checkpoint_consistency (cfg : Config)
    (provider : ℕ → ℕ → Query → Attempt) (cp saved : Checkpoint)
    (sf : LoopState) (r : StopReason)
    (h : harvest cfg provider cp = some (saved, sf, r)) :
    saved.chunk_counter = cp.chunk_counter + sf.chunks.length ∧
    (r ≠ StopReason.quotaHit →
      (sf.fetchLog.map Query.cursor).getLast? = some saved.cursor) ∧
    (r = StopReason.quotaHit →
      (sf.respLog.map nextTok).getLast? = some saved.cursor ∧
      ((cp.cursor :: sf.respLog.map nextTok).Nodup →
        saved.cursor ∉ sf.fetchLog.map Query.cursor)) := by
  obtain ⟨hcore, hbuf, hsaved, hex, hlast, hquota⟩ :=
    harvest_sound cfg provider cp saved sf r h
  refine ⟨?_, hlast, ?_⟩
  · rw [hsaved]
    exact hcore.counter_eq
  · intro hq
    obtain ⟨hstruct, hresp⟩ := hquota hq
    constructor
    · have htoks : sf.respLog.map nextTok ≠ [] := by
        intro hcon
        exact hresp (List.map_eq_nil_iff.mp hcon)
      have hlhs : (sf.fetchLog.map Query.cursor ++ [saved.cursor]).getLast?
          = some saved.cursor := List.getLast?_concat _
      rw [hstruct] at hlhs
      rcases hmap : sf.respLog.map nextTok with _ | ⟨a, l⟩
      · exact absurd hmap htoks
      · rw [hmap] at hlhs
        rw [List.getLast?_cons_cons] at hlhs
        exact hlhs
    · intro hfresh
      have hnodup : (sf.fetchLog.map Query.cursor ++ [saved.cursor]).Nodup := by
        rw [hstruct]
        exact hfresh
      intro hmem
      obtain ⟨_, _, hdisj⟩ := List.nodup_append.mp hnodup
      exact hdisj hmem (by simp)

/-- Witness for C1 (amended) at the quota scenario: three fetches with
distinct tokens; the saved checkpoint is (tok2, 1). -/
theorem C1_witness :
    harvest cfg3 provC7 cpStar = some (⟨"tok2", 1⟩, sfQuota, StopReason.quotaHit) ∧
    ((⟨"tok2", 1⟩ : Checkpoint).chunk_counter
        = cpStar.chunk_counter + sfQuota.chunks.length ∧
      (StopReason.quotaHit ≠ StopReason.quotaHit →
        (sfQuota.fetchLog.map Query.cursor).getLast?
          = some (⟨"tok2", 1⟩ : Checkpoint).cursor) ∧
      (StopReason.quotaHit = StopReason.quotaHit →
        (sfQuota.respLog.map nextTok).getLast?
          = some (⟨"tok2", 1⟩ : Checkpoint).cursor ∧
        ((cpStar.cursor :: sfQuota.respLog.map nextTok).Nodup →
          (⟨"tok2", 1⟩ : Checkpoint).cursor ∉ sfQuota.fetchLog.map Query.cursor))) :=
  ⟨by decide,
    C1_checkpoint_consistency cfg3 provC7 cpStar ⟨"tok2", 1⟩ sfQuota
      StopReason.quotaHit (by decide)⟩

/-- C2: a fresh run from checkpoint (C, K) issues its first fetch with
exactly cursor C, and the first chunk it produces (if any) carries
counter K + 1. -/
theorem C2_resume_idempotence (cfg : Config)
    (provider : ℕ → ℕ → Query → Attempt) (cp saved : Checkpoint)
    (sf : LoopState) (r : StopReason)
    (h : harvest cfg provider cp = some (saved, sf, r)) :
    (∀ q0, sf.fetchLog.head? = some q0 → q0.cursor = cp.cursor) ∧
    (∀ k, sf.chunks.head? = some k → k.1 = cp.chunk_counter + 1) := by
  obtain ⟨hcore, _, _, _, _, _⟩ := harvest_sound cfg provider cp saved sf r h
  refine ⟨hcore.first_fetch, ?_⟩
  intro k hk
  have h0 : sf.chunks[0]? = some k := by
    rcases hc : sf.chunks with _ | ⟨a, l⟩
    · rw [hc] at hk
      exact Option.noConfusion hk
    · rw [hc] at hk
      simp only [List.head?_cons, Option.some.injEq] at hk
      rw [← hk]
      exact List.getElem?_cons_zero
  have hnum := hcore.numbering 0 k h0
  omega

/-- Witness for C2 at the single-page scenario: the only fetch used the
loaded cursor and the only chunk carries counter 1. -/
theorem C2_witness :
    harvest cfg3 provE cpStar = some (⟨"*", 1⟩, sfEnd, StopReason.exhausted) ∧
    ((∀ q0, sfEnd.fetchLog.head? = some q0 → q0.cursor = cpStar.cursor) ∧
      (∀ k, sfEnd.chunks.head? = some k → k.1 = cpStar.chunk_counter + 1)) :=
  ⟨by decide,
    C2_resume_idempotence cfg3 provE cpStar ⟨"*", 1⟩ sfEnd
      StopReason.exhausted (by decide)⟩

/-- C3: the records written across a run's chunk files are, in order,
exactly the concatenation of the entry lists returned by the successful
fetches of that run; in particular the total record count equals the
sum of the entry list lengths, so no record is dropped and none is
written twice. -/
theorem C3_chunk_completeness (cfg : Config)
    (provider : ℕ → ℕ → Query → Attempt) (cp saved : Checkpoint)
    (sf : LoopState) (r : StopReason)
    (h : harvest cfg provider cp = some (saved, sf, r)) :
    catChunks sf.chunks = sf.allEntries ∧
    (sf.chunks.map (fun k => k.2.length)).sum = sf.allEntries.length := by
  obtain ⟨hcore, hbuf, _, _, _, _⟩ := harvest_sound cfg provider cp saved sf r h
  have hcat : catChunks sf.chunks = sf.allEntries := by
    have h1 := hcore.cat_eq
    rw [hbuf, List.append_nil] at h1
    exact h1
  refine ⟨hcat, ?_⟩
  rw [← length_catChunks, hcat]

/-- Witness for C3 at the quota scenario: the single chunk holds
exactly the three returned entries. -/
theorem C3_witness :
    harvest cfg3 provC7 cpStar = some (⟨"tok2", 1⟩, sfQuota, StopReason.quotaHit) ∧
    (catChunks sfQuota.chunks = sfQuota.allEntries ∧
      (sfQuota.chunks.map (fun k => k.2.length)).sum = sfQuota.allEntries.length) :=
  ⟨by decide,
    C3_chunk_completeness cfg3 provC7 cpStar ⟨"tok2", 1⟩ sfQuota
      StopReason.quotaHit (by decide)⟩

/-- C6 fails on the code: when records are buffered at the moment of the
retry-exhausted abort, the trailing remainder flush still writes one
more chunk and increments the counter past what the flushes before the
abort produced. -/
theorem C6_counterexample : ¬ C6_originalProp := fun h =>
  absurd ((h cfg5 provC6 cpStar sLFail (by decide)).1) (by decide)

/-- C6 (amended): when a fetch fails 5 consecutive times the run
aborts; the saved counter is the loaded counter plus the chunks flushed
before the abort, plus one more for the remainder flush exactly when
records were buffered; and the cursor is not advanced: the saved cursor
is the cursor used for the failed fetch. -/
theorem C6_retry_abort (cfg : Config) (provider : ℕ → ℕ → Query → Attempt)
    (cp : Checkpoint) (sL : LoopState)
    (h : harvestLoop cfg provider cp = some (sL, StopReason.fatalRetry)) :
    (savedState (finishRun sL)).chunk_counter
        = cp.chunk_counter + sL.chunks.length
          + (if sL.buffer = [] then 0 else 1) ∧
    (savedState (finishRun sL)).cursor = sL.query.cursor ∧
    (sL.fetchLog.map Query.cursor).getLast? = some sL.query.cursor := by
  have hf := harvestLoop_sound cfg provider cp sL StopReason.fatalRetry h
  refine ⟨?_, ?_, hf.last_cursor (by decide)⟩
  · show (finishRun sL).chunk_counter = _
    rw [finishRun_counter, hf.core.counter_eq]
  · show (finishRun sL).query.cursor = sL.query.cursor
    rw [finishRun_query]

/-- Witness for C6 (amended): one successful fetch buffers one record,
then the second fetch exhausts its retries; the abort flushes one
remainder chunk and keeps the failed fetch's cursor. -/
theorem C6_witness :
    harvestLoop cfg5 provC6 cpStar = some (sLFail, StopReason.fatalRetry) ∧
    ((savedState (finishRun sLFail)).chunk_counter
        = cpStar.chunk_counter + sLFail.chunks.length
          + (if sLFail.buffer = [] then 0 else 1) ∧
      (savedState (finishRun sLFail)).cursor = sLFail.query.cursor ∧
      (sLFail.fetchLog.map Query.cursor).getLast? = some sLFail.query.cursor) :=
  ⟨by decide, C6_retry_abort cfg5 provC6 cpStar sLFail (by decide)⟩

/-- C7: with max_requests_per_run = 3 and a provider returning one
entry plus a next token on every fetch, the run performs exactly 3
fetches, stops with QUOTA_HIT, and saves as cursor the token returned
by the 3rd fetch. -/
theorem C7_quota_scenario :
    cfg3.maxReqs = 3 ∧
    harvest cfg3 provC7 cpStar = some (⟨"tok2", 1⟩, sfQuota, StopReason.quotaHit) ∧
    sfQuota.fetchLog.length = 3 ∧
    (sfQuota.respLog.map nextTok).getLast? = some "tok2" := by
  decide

/-- C8: for a run whose counted request total is an exact multiple of
the chunk-size threshold, no zero-record chunk file exists at run end:
every chunk written is non-empty, and when the abort-time buffer is
empty the run-end flush adds no chunk at all. -/
theorem C8_no_empty_trailing_chunk (cfg : Config)
    (provider : ℕ → ℕ → Query → Attempt) (cp saved : Checkpoint)
    (sf : LoopState) (r : StopReason)
    (h : harvest cfg provider cp = some (saved, sf, r))
    (_hm : sf.requests_done % cfg.chunkSize = 0) :
    (∀ k ∈ sf.chunks, k.2 ≠ []) ∧
    (∀ sL, harvestLoop cfg provider cp = some (sL, r) → sL.buffer = [] →
      sf.chunks = sL.chunks) := by
  obtain ⟨hcore, hbuf, hsaved, hex, _, _⟩ := harvest_sound cfg provider cp saved sf r h
  refine ⟨hcore.chunks_ne, ?_⟩
  intro sL hL hbL
  obtain ⟨sL2, hL2, hfin⟩ := hex
  rw [hL] at hL2
  have h3 : ((sL, r) : LoopState × StopReason) = (sL2, r) := by
    injection hL2
  have h4 : sL = sL2 := by
    injection h3 with ha hb
  rw [hfin, ← h4, finishRun_chunks_empty sL hbL]

/-- Witness for C8 at the boundary scenario: two fetches with chunk
size two; the single boundary chunk is non-empty and the run-end flush
adds nothing. -/
theorem C8_witness :
    harvest cfgB provC7 cpStar = some (⟨"tok1", 1⟩, sfBound, StopReason.quotaHit) ∧
    sfBound.requests_done % cfgB.chunkSize = 0 ∧
    ((∀ k ∈ sfBound.chunks, k.2 ≠ []) ∧
      (∀ sL, harvestLoop cfgB provC7 cpStar = some (sL, StopReason.quotaHit) →
        sL.buffer = [] → sfBound.chunks = sL.chunks)) :=
  ⟨by decide, by decide,
    C8_no_empty_trailing_chunk cfgB provC7 cpStar ⟨"tok1", 1⟩ sfBound
      StopReason.quotaHit (by decide) (by decide)⟩

/-- C9: every chunk file written during any run - boundary chunks as
well as the trailing remainder - contains at least one record. -/
theorem C9_chunks_nonempty (cfg : Config)
    (provider : ℕ → ℕ → Query → Attempt) (cp saved : Checkpoint)
    (sf : LoopState) (r : StopReason)
    (h : harvest cfg provider cp = some (saved, sf, r)) :
    ∀ k ∈ sf.chunks, k.2 ≠ [] :=
  (harvest_sound cfg provider cp saved sf r h).1.chunks_ne

/-- Witness for C9 at the single-page scenario: the one chunk written
holds one record. -/
theorem C9_witness :
    harvest cfg3 provE cpStar = some (⟨"*", 1⟩, sfEnd, StopReason.exhausted) ∧
    (∀ k ∈ sfEnd.chunks, k.2 ≠ []) :=
  ⟨by decide,
    C9_chunks_nonempty cfg3 provE cpStar ⟨"*", 1⟩ sfEnd
      StopReason.exhausted (by decide)⟩

/-- C10: when the first fetch obtains no successful response (all five
attempts fail, or the first response has a non-success status), the run
creates no chunk and the checkpoint written at run end holds exactly
the cursor and counter the run started with; the write still happens,
so a run started without a checkpoint file leaves one holding the
defaults. -/
theorem C10_failed_run_preserves_state (cfg : Config)
    (provider : ℕ → ℕ → Query → Attempt) (cp saved : Checkpoint)
    (sf : LoopState) (r : StopReason)
    (h : harvest cfg provider cp = some (saved, sf, r))
    (hfail : (retryFetch (provider 0) (mkQuery cp.cursor)).result = none ∨
      (∃ resp, (retryFetch (provider 0) (mkQuery cp.cursor)).result = some resp ∧
        resp.status ≠ 200)) :
    sf.chunks = [] ∧ saved.cursor = cp.cursor ∧
    saved.chunk_counter = cp.chunk_counter := by
  have hstep : ∃ rr, stepFetch cfg (provider 0) (initState cp)
      = (logFetch (initState cp), some rr) := by
    rcases hfail with hnone | ⟨resp, hres, hst⟩
    · exact ⟨_, stepFetch_eq_none cfg (provider 0) (initState cp) hnone⟩
    · exact ⟨_, stepFetch_eq_badStatus cfg (provider 0) (initState cp) resp hres hst⟩
  obtain ⟨rr, hstep⟩ := hstep
  have hloop : harvestLoop cfg provider cp = some (logFetch (initState cp), rr) := by
    show runAux cfg provider (cfg.maxReqs + 1) 0 (initState cp) = _
    simp only [runAux]
    rw [hstep]
  unfold harvest at h
  rw [hloop] at h
  have hfin : finishRun (logFetch (initState cp)) = logFetch (initState cp) := by
    unfold finishRun
    rw [if_pos (show (logFetch (initState cp)).buffer = [] from rfl)]
  have hred : some (savedState (finishRun (logFetch (initState cp))),
      finishRun (logFetch (initState cp)), rr) = some (saved, sf, r) := h
  rw [hfin] at hred
  have h2 : ((savedState (logFetch (initState cp)), logFetch (initState cp), rr)
      : Checkpoint × LoopState × StopReason) = (saved, sf, r) := by
    injection hred
  injection h2 with ha hb
  injection hb with hb1 hb2
  subst ha
  subst hb1
  exact ⟨rfl, rfl, rfl⟩

/-- Witness for C10: every attempt of every fetch raises a network
error; the run writes no chunk and saves the default checkpoint it
started from. -/
theorem C10_witness :
    harvest cfg3 provN cpStar = some (⟨"*", 0⟩, sfNone, StopReason.fatalRetry) ∧
    (retryFetch (provN 0) (mkQuery cpStar.cursor)).result = none ∧
    (sfNone.chunks = [] ∧ (⟨"*", 0⟩ : Checkpoint).cursor = cpStar.cursor ∧
      (⟨"*", 0⟩ : Checkpoint).chunk_counter = cpStar.chunk_counter) :=
  ⟨by decide, by decide,
    C10_failed_run_preserves_state cfg3 provN cpStar ⟨"*", 0⟩ sfNone
      StopReason.fatalRetry (by decide) (Or.inl (by decide))⟩

end Scopus
